import Mathlib

/-!
Verification of the credential-lifecycle core of the Redis database plugin
(`src/redis.go`) against its natural-language specification.

The Go source is shallowly embedded: the data store is modelled per node as an
association list from username to the stored password token, an `ACL` command is
its argument list, and the two connection topologies (single pool vs. cluster)
are the two constructors of `World`.  External failures (a node rejecting a
command, the connection producer failing to connect or to close) are injected
through explicit environment parameters, so every embedded operation is a pure
function from its inputs and that environment to its result, the issued-command
trace, and the final store state.
-/

namespace RedisPlugin

/-- Embeds Go `strings.TrimSpace` (used by `removeEmpty`, src/redis.go 294):
strips leading and trailing whitespace characters. -/
def goTrim (s : String) : String :=
  ⟨((s.data.dropWhile Char.isWhitespace).reverse.dropWhile Char.isWhitespace).reverse⟩

/-- Embeds the per-character mapping of Go `strings.ToUpper` on the ASCII letters
(the range relevant to generated usernames). -/
def goCharUpper (c : Char) : Char :=
  let n := c.toNat
  if n ≥ 97 ∧ n ≤ 122 then Char.ofNat (n - 32) else c

/-- Embeds Go `strings.ToUpper` (src/redis.go 78), applied character-wise. -/
def goToUpper (s : String) : String :=
  ⟨s.data.map goCharUpper⟩

/-- Constant `maxKeyLength = 64` (src/redis.go 23). -/
def maxKeyLength : Nat := 64

/-- Length-capping of a string to at most `n` characters, as done by the
username builder's truncation. -/
def trunc (s : String) (n : Nat) : String :=
  ⟨s.data.take n⟩

/-- Joins the non-empty parts with the separator, skipping empty parts. -/
def joinNonEmpty (sep : String) : List String → String
  | [] => ""
  | s :: rest =>
    let r := joinNonEmpty sep rest
    if s = "" then r else if r = "" then s else s ++ sep ++ r

/-- Modelled from the spec: `credsutil.GenerateUsername` (a vault SDK helper) is
not under `src/`.  Per spec §3 the username is "derived deterministically from a
display name and role name, truncated to a maximum key length"; the display-name
and role-name components are each truncated to `maxKeyLength` (the options passed
at src/redis.go 72-74), and `uniq` stands for the spec's "implementation-chosen
uniqueness source". -/
def generateUsername (displayName roleName uniq : String) : String :=
  trunc (joinNonEmpty "_" [trunc displayName maxKeyLength, trunc roleName maxKeyLength, uniq])
    maxKeyLength

/-- An `ACL` command, as the list of arguments following `"ACL"` in
`radix.Cmd(&resp, "ACL", args...)`. -/
abbrev Cmd := List String

/-- One cluster node (or the single pool instance): its address, its ACL table
(username to stored password token), the outcome of obtaining its per-node
client (`Cluster.Client(node)`), and an injected external failure for running a
given command on it (network failure or store-side rejection). -/
structure Node where
  name : String
  store : List (String × String)
  clientErr : Option String
  cmdFail : Cmd → Option String

/-- What a command's response receiver observes: for `ACL GETUSER`, whether the
reply was non-nil (a `radix.MaybeNil` receiver); otherwise a plain string. -/
inductive CmdResp where
  | getuser (found : Bool)
  | simple (s : String)
deriving Repr, DecidableEq

/-- Whether the receiver saw a nil reply (`mn.Nil` in src/redis.go 229/254). -/
def respNil : CmdResp → Bool
  | .getuser found => !found
  | .simple _ => false

/-- Association-list lookup of a username in a node's ACL table. -/
def lookupUser : List (String × String) → String → Option String
  | [], _ => none
  | (k, v) :: rest, u => if k = u then some v else lookupUser rest u

/-- Sets (creating if absent) the stored password token of a user. -/
def setUserEntry : List (String × String) → String → String → List (String × String)
  | [], u, pw => [(u, pw)]
  | (k, v) :: rest, u, pw =>
    if k = u then (k, pw) :: rest else (k, v) :: setUserEntry rest u pw

/-- Removes a user from a node's ACL table. -/
def delUserEntry : List (String × String) → String → List (String × String)
  | [], _ => []
  | (k, v) :: rest, u =>
    if k = u then delUserEntry rest u else (k, v) :: delUserEntry rest u

/-- Models the data store's ACL command semantics at the external interface
boundary (spec §6): `GETUSER` answers a nil reply exactly when the user is
absent; `SETUSER <u> ON >pw <rules...>` and `SETUSER <u> RESETPASS >pw` set the
user's password token; `DELUSER` removes the user. -/
def aclApply (cmd : Cmd) (st : List (String × String)) :
    List (String × String) × CmdResp :=
  match cmd with
  | ["GETUSER", u] => (st, .getuser (lookupUser st u).isSome)
  | ["DELUSER", u] => (delUserEntry st u, .simple "1")
  | ["SETUSER", u, "RESETPASS", pw] => (setUserEntry st u pw, .simple "OK")
  | "SETUSER" :: u :: "ON" :: pw :: _rules => (setUserEntry st u pw, .simple "OK")
  | _ => (st, .simple "ERR")

/-- Runs one `ACL` command on one node: either the injected external failure
fires, or the store applies the command. -/
def nodeDo (n : Node) (cmd : Cmd) : Except String (Node × CmdResp) :=
  match n.cmdFail cmd with
  | some e => .error e
  | none => .ok ({ n with store := (aclApply cmd n.store).1 }, (aclApply cmd n.store).2)

/-- The node state after a successfully applied command. -/
def applyNode (cmd : Cmd) (n : Node) : Node :=
  { n with store := (aclApply cmd n.store).1 }

/-- The connected store: a single instance (`*radix.Pool`) or a cluster
(`*radix.Cluster`) whose topology snapshot enumerates the member nodes in
iteration order. -/
inductive World where
  | pool (n : Node)
  | cluster (nodes : List Node)

/-- The member nodes of a world. -/
def World.nodes : World → List Node
  | .pool n => [n]
  | .cluster ns => ns

/-- Result of a cluster fan-out loop: the per-node commands actually issued (in
order), the resulting node states, and the first failure with the failing
node's name. -/
structure FanResult where
  trace : List (String × Cmd)
  nodes : List Node
  err : Option (String × String)

/-- The cluster fan-out loop shared by `DeleteUser` (src/redis.go 134-141),
`newUser` (178-188) and the reset half of `changeUserPassword` (275-285): for
each enumerated node, obtain the per-node client — the error of that call is
assigned and immediately overwritten, mirroring
`cl, err := db.(*radix.Cluster).Client(node); err = cl.Do(...)` — then run the
command, returning at the first failure. -/
def fanOut (cmd : Cmd) : List Node → FanResult
  | [] => ⟨[], [], none⟩
  | n :: rest =>
    let _errFromClient := n.clientErr
    match nodeDo n cmd with
    | .error e => ⟨[(n.name, cmd)], n :: rest, some (n.name, e)⟩
    | .ok (n1, _) =>
      let r := fanOut cmd rest
      ⟨(n.name, cmd) :: r.trace, n1 :: r.nodes, r.err⟩

/-- The error values the lifecycle operations can return, one constructor per
`return`-an-error site in src/redis.go, carrying the data the corresponding
format string interpolates. -/
inductive OpError where
  | connFailed (e : String)
  | ruleParseFailed (e : String)
  | rawErr (e : String)
  | poolDelFailed (e : String)
  | clusterDelFailed (node : String) (e : String)
  | poolGetuserFailed (user : String) (e : String)
  | poolUserNotFound (user : String)
  | clusterGetuserFailed (user : String) (node : String) (e : String)
  | clusterUserNotFound (node : String) (user : String)
  | poolResetFailed (user : String) (e : String)
  | clusterResetFailed (user : String) (node : String) (e : String)
deriving Repr, DecidableEq

/-- Which cluster node, if any, an error value references (the node name
interpolated into the wrapping error message; `rawErr` is an error returned
verbatim, wrapping nothing). -/
def refNode : OpError → Option String
  | .clusterDelFailed node _ => some node
  | .clusterGetuserFailed _ node _ => some node
  | .clusterUserNotFound node _ => some node
  | .clusterResetFailed _ node _ => some node
  | _ => none

/-- Whether an operation outcome is the user-not-found failure of
`changeUserPassword` (src/redis.go 230 and 255). -/
def isUserNotFound : Option OpError → Bool
  | some (.poolUserNotFound _) => true
  | some (.clusterUserNotFound _ _) => true
  | _ => false

/-- Result of the existence-check loop: the `GETUSER` commands issued and the
first failure, if any. -/
structure CheckResult where
  trace : List (String × Cmd)
  err : Option OpError

/-- The per-node existence-check loop of `changeUserPassword` (src/redis.go
236-257): `ACL GETUSER` on every member; a command failure or a nil reply
(user absent on that node) aborts the loop. -/
def checkLoop (username : String) : List Node → CheckResult
  | [] => ⟨[], none⟩
  | n :: rest =>
    let _errFromClient := n.clientErr
    match nodeDo n ["GETUSER", username] with
    | .error e =>
      ⟨[(n.name, ["GETUSER", username])], some (.clusterGetuserFailed username n.name e)⟩
    | .ok (_, resp) =>
      if respNil resp then
        ⟨[(n.name, ["GETUSER", username])], some (.clusterUserNotFound n.name username)⟩
      else
        let r := checkLoop username rest
        ⟨(n.name, ["GETUSER", username]) :: r.trace, r.err⟩

/-- An issued command, tagged with the node it went to (`none` for the pool). -/
abbrev TraceEntry := Option String × Cmd

/-- Result of a dispatched operation core: final store state, issued commands,
and outcome. -/
structure RunOut where
  world : World
  trace : List TraceEntry
  err : Option OpError

/-- Tags a cluster-loop trace with its node names. -/
def tagTrace (t : List (String × Cmd)) : List TraceEntry :=
  t.map (fun p => (some p.1, p.2))

/-- Embeds `removeEmpty` (src/redis.go 291-302): trims every statement and
drops the blank ones, keeping the trimmed text. -/
def removeEmpty : List String → List String
  | [] => []
  | s :: rest =>
    let t := goTrim s
    if t = "" then removeEmpty rest else t :: removeEmpty rest

/-- Constant `defaultRedisUserRule` (src/redis.go 21). -/
def defaultRedisUserRule : String := "[\"~*\", \"+@read\"]"

/-- The statement list `newUser` actually decodes (src/redis.go 147-150): the
trimmed non-blank statements, or the lone default rule when there are none. -/
def effectiveStatements (commands : List String) : List String :=
  let statements := removeEmpty commands
  if statements.length = 0 then [defaultRedisUserRule] else statements

/-- Embeds `newUser` (src/redis.go 146-192).  `jsonDec` stands for the external
`encoding/json.Unmarshal` into `[]string`, applied to the first statement;
decode failure is returned before any command is issued.  The pool and cluster
branches both return the command error unwrapped (`return err`). -/
def newUserRun (jsonDec : String → Except String (List String)) (db : World)
    (username password : String) (commands : List String) : RunOut :=
  let statements := effectiveStatements commands
  let aclargs0 := ["SETUSER", username, "ON", ">" ++ password]
  match jsonDec (statements.headD "") with
  | .error e => ⟨db, [], some (.ruleParseFailed e)⟩
  | .ok args =>
    let aclargs := aclargs0 ++ args
    match db with
    | .pool n =>
      match nodeDo n aclargs with
      | .error e => ⟨.pool n, [(none, aclargs)], some (.rawErr e)⟩
      | .ok (n1, _) => ⟨.pool n1, [(none, aclargs)], none⟩
    | .cluster ns =>
      let r := fanOut aclargs ns
      ⟨.cluster r.nodes, tagTrace r.trace, r.err.map (fun p => .rawErr p.2)⟩

/-- Embeds the type-switch core of `DeleteUser` (src/redis.go 122-143): issue
`ACL DELUSER` once on a pool, or per node on a cluster; the cluster wrap names
the failing node, the pool wrap does not. -/
def deleteUserRun (db : World) (username : String) : RunOut :=
  match db with
  | .pool n =>
    match nodeDo n ["DELUSER", username] with
    | .error e => ⟨.pool n, [(none, ["DELUSER", username])], some (.poolDelFailed e)⟩
    | .ok (n1, _) => ⟨.pool n1, [(none, ["DELUSER", username])], none⟩
  | .cluster ns =>
    let r := fanOut ["DELUSER", username] ns
    ⟨.cluster r.nodes, tagTrace r.trace, r.err.map (fun p => .clusterDelFailed p.1 p.2)⟩

/-- The password-reset command `ACL SETUSER <u> RESETPASS ><pw>`
(src/redis.go 264 and 278). -/
def resetCmd (username password : String) : Cmd :=
  ["SETUSER", username, "RESETPASS", ">" ++ password]

/-- Embeds the core of `changeUserPassword` (src/redis.go 211-288): the
existence check (`ACL GETUSER`, a nil reply meaning the user is absent) followed
by the password reset, each dispatched on topology; on a cluster both phases
loop over the member nodes, checks first, resets second. -/
def changeUserPasswordRun (db : World) (username password : String) : RunOut :=
  match db with
  | .pool n =>
    match nodeDo n ["GETUSER", username] with
    | .error e =>
      ⟨.pool n, [(none, ["GETUSER", username])], some (.poolGetuserFailed username e)⟩
    | .ok (n1, resp) =>
      if respNil resp then
        ⟨.pool n1, [(none, ["GETUSER", username])], some (.poolUserNotFound username)⟩
      else
        match nodeDo n1 (resetCmd username password) with
        | .error e =>
          ⟨.pool n1, [(none, ["GETUSER", username]), (none, resetCmd username password)],
            some (.poolResetFailed username e)⟩
        | .ok (n2, _) =>
          ⟨.pool n2, [(none, ["GETUSER", username]), (none, resetCmd username password)], none⟩
  | .cluster ns =>
    let ck := checkLoop username ns
    match ck.err with
    | some e => ⟨.cluster ns, tagTrace ck.trace, some e⟩
    | none =>
      let r := fanOut (resetCmd username password) ns
      ⟨.cluster r.nodes, tagTrace ck.trace ++ tagTrace r.trace,
        r.err.map (fun p => .clusterResetFailed username p.1 p.2)⟩

/-- The connection producer's cached-handle state: whether a client handle is
currently cached. -/
structure ConnState where
  connOpen : Bool
deriving Repr, DecidableEq

/-- Modelled from the spec: the connection producer's `Connection` (§4.1) is not
under `src/`; per the spec it returns the cached handle when one exists and
otherwise establishes and caches a new one — the outcome of that attempt is the
environment parameter `connErr`. -/
def getConnection (cs : ConnState) (connErr : Option String) : Except String ConnState :=
  if cs.connOpen then .ok cs
  else
    match connErr with
    | some e => .error e
    | none => .ok { connOpen := true }

/-- Modelled from the spec: the connection producer's `close` (§4.1) is not
under `src/`; per the spec it releases the cached handle and clears it, and may
itself fail (`CloseFailed`, the environment parameter `closeErr`), which the
callers log and otherwise ignore. -/
def closeConn (_cs : ConnState) (closeErr : Option String) : ConnState × Option String :=
  ({ connOpen := false }, closeErr)

/-- Result of a full lifecycle operation: connection-producer state, final
store state, issued commands, and outcome. -/
structure OpOut where
  db : ConnState
  world : World
  trace : List TraceEntry
  err : Option OpError

/-- Embeds `DeleteUser` (src/redis.go 105-144): obtain the connection — failing
that, return before the deferred close is even registered — then run the
`ACL DELUSER` dispatch and close the cached connection regardless of the
outcome, logging and ignoring any close failure. -/
def DeleteUser (cs : ConnState) (w : World) (connErr closeErr : Option String)
    (username : String) : OpOut :=
  match getConnection cs connErr with
  | .error e => ⟨cs, w, [], some (.connFailed e)⟩
  | .ok cs1 =>
    let r := deleteUserRun w username
    let cs2 := (closeConn cs1 closeErr).1
    ⟨cs2, r.world, r.trace, r.err⟩

/-- Embeds `changeUserPassword` (src/redis.go 194-289): obtain the connection —
failing that, return before the deferred close is registered — then run the
check-and-reset core and close the cached connection regardless of the outcome,
logging and ignoring any close failure. -/
def changeUserPassword (cs : ConnState) (w : World) (connErr closeErr : Option String)
    (username password : String) : OpOut :=
  match getConnection cs connErr with
  | .error e => ⟨cs, w, [], some (.connFailed e)⟩
  | .ok cs1 =>
    let r := changeUserPasswordRun w username password
    let cs2 := (closeConn cs1 closeErr).1
    ⟨cs2, r.world, r.trace, r.err⟩

/-- Embeds `UpdateUser` (src/redis.go 97-103): delegates to
`changeUserPassword` when the request carries a new password and otherwise does
nothing at all. -/
def UpdateUser (cs : ConnState) (w : World) (connErr closeErr : Option String)
    (username : String) (newPassword : Option String) : OpOut :=
  match newPassword with
  | some pw => changeUserPassword cs w connErr closeErr username pw
  | none => ⟨cs, w, [], none⟩

/-- Embeds `NewUser` (src/redis.go 67-95): generate and uppercase the username,
obtain the connection, then run `newUser`; the username is returned only on
success. -/
def NewUser (jsonDec : String → Except String (List String)) (cs : ConnState)
    (w : World) (connErr : Option String) (displayName roleName uniq password : String)
    (commands : List String) : OpOut × String :=
  let username := goToUpper (generateUsername displayName roleName uniq)
  match getConnection cs connErr with
  | .error e => (⟨cs, w, [], some (.connFailed e)⟩, "")
  | .ok cs1 =>
    let r := newUserRun jsonDec w username password commands
    (⟨cs1, r.world, r.trace, r.err⟩, if r.err.isSome then "" else username)

/-- Durations in milliseconds. -/
def millisecond : Int := 1

/-- One second, in the duration model. -/
def second : Int := 1000 * millisecond

/-- Constant `defaultTimeout = 20000 * time.Millisecond` (src/redis.go 22). -/
def defaultTimeout : Int := 20000 * millisecond

/-- A caller context, as far as `computeTimeout` consults it: an optional
absolute deadline. -/
structure Ctx where
  deadline : Option Int
deriving Repr, DecidableEq

/-- Embeds `time.Until`: the duration from `now` until `deadline`. -/
def timeUntil (now deadline : Int) : Int := deadline - now

/-- Embeds `computeTimeout` (src/redis.go 304-310). -/
def computeTimeout (now : Int) (ctx : Ctx) : Int :=
  match ctx.deadline with
  | some deadline => timeUntil now deadline
  | none => defaultTimeout

/-- A node with the per-node client-acquisition error blanked out; used to state
that the fan-out loops never consult that error. -/
def Node.dropClientErr (n : Node) : Node :=
  { n with clientErr := none }

/-- A world with all per-node client-acquisition errors blanked out. -/
def World.dropClientErr : World → World
  | .pool n => .pool n.dropClientErr
  | .cluster ns => .cluster (ns.map Node.dropClientErr)

/-- An operation result with the client-acquisition errors blanked out of its
final world. -/
def OpOut.dropClientErr (o : OpOut) : OpOut :=
  { o with world := o.world.dropClientErr }

/-! ## Helper lemmas -/

/-- A trimmed-down node has the same failure behaviour and store. -/
theorem nodeDo_ok {n : Node} {cmd : Cmd} (h : n.cmdFail cmd = none) :
    nodeDo n cmd = .ok (applyNode cmd n, (aclApply cmd n.store).2) := by
  simp [nodeDo, h, applyNode]

theorem nodeDo_err {n : Node} {cmd : Cmd} {e : String} (h : n.cmdFail cmd = some e) :
    nodeDo n cmd = .error e := by
  simp [nodeDo, h]

theorem fanOut_ok {cmd : Cmd} {ns : List Node} (h : ∀ n ∈ ns, n.cmdFail cmd = none) :
    fanOut cmd ns =
      ⟨ns.map (fun n => (n.name, cmd)), ns.map (applyNode cmd), none⟩ := by
  induction ns with
  | nil => rfl
  | cons n rest ih =>
    have hn := h n (List.mem_cons_self ..)
    have hrest : ∀ m ∈ rest, m.cmdFail cmd = none :=
      fun m hm => h m (List.mem_cons_of_mem _ hm)
    simp [fanOut, nodeDo_ok hn, ih hrest]

theorem fanOut_stop {cmd : Cmd} {pre post : List Node} {nk : Node} {e : String}
    (hpre : ∀ n ∈ pre, n.cmdFail cmd = none) (hk : nk.cmdFail cmd = some e) :
    fanOut cmd (pre ++ nk :: post) =
      ⟨pre.map (fun n => (n.name, cmd)) ++ [(nk.name, cmd)],
       pre.map (applyNode cmd) ++ nk :: post, some (nk.name, e)⟩ := by
  induction pre with
  | nil => simp [fanOut, nodeDo_err hk]
  | cons n rest ih =>
    have hn := hpre n (List.mem_cons_self ..)
    have hrest : ∀ m ∈ rest, m.cmdFail cmd = none :=
      fun m hm => hpre m (List.mem_cons_of_mem _ hm)
    simp [fanOut, nodeDo_ok hn, ih hrest]

/-- Whether a node's ACL table has the user. -/
def hasUser (n : Node) (u : String) : Bool :=
  (lookupUser n.store u).isSome

theorem applyNode_getuser (u : String) (n : Node) : applyNode ["GETUSER", u] n = n := rfl

theorem checkLoop_ok {u : String} {ns : List Node}
    (h : ∀ n ∈ ns, n.cmdFail ["GETUSER", u] = none ∧ hasUser n u = true) :
    checkLoop u ns = ⟨ns.map (fun n => (n.name, ["GETUSER", u])), none⟩ := by
  induction ns with
  | nil => rfl
  | cons n rest ih =>
    have hn := h n (List.mem_cons_self ..)
    have hrest : ∀ m ∈ rest, m.cmdFail ["GETUSER", u] = none ∧ hasUser m u = true :=
      fun m hm => h m (List.mem_cons_of_mem _ hm)
    have hfound : lookupUser n.store u ≠ none := by
      have h2 := hn.2
      unfold hasUser at h2
      exact Option.isSome_iff_ne_none.mp h2
    simp [checkLoop, nodeDo_ok hn.1, aclApply, respNil, hfound, ih hrest]

theorem checkLoop_missing {u : String} {pre post : List Node} {nk : Node}
    (hpre : ∀ n ∈ pre, n.cmdFail ["GETUSER", u] = none ∧ hasUser n u = true)
    (hkok : nk.cmdFail ["GETUSER", u] = none) (hkmiss : hasUser nk u = false) :
    checkLoop u (pre ++ nk :: post) =
      ⟨pre.map (fun n => (n.name, ["GETUSER", u])) ++ [(nk.name, ["GETUSER", u])],
       some (.clusterUserNotFound nk.name u)⟩ := by
  induction pre with
  | nil =>
    have hmiss : lookupUser nk.store u = none := by
      have h2 := hkmiss
      unfold hasUser at h2
      exact Option.not_isSome_iff_eq_none.mp (by simp [h2])
    simp only [List.nil_append, List.map_nil]
    simp [checkLoop, nodeDo_ok hkok, aclApply, respNil, hmiss]
  | cons n rest ih =>
    have hn := hpre n (List.mem_cons_self ..)
    have hrest : ∀ m ∈ rest, m.cmdFail ["GETUSER", u] = none ∧ hasUser m u = true :=
      fun m hm => hpre m (List.mem_cons_of_mem _ hm)
    have hfound : lookupUser n.store u ≠ none := by
      have h2 := hn.2
      unfold hasUser at h2
      exact Option.isSome_iff_ne_none.mp h2
    simp [checkLoop, nodeDo_ok hn.1, aclApply, respNil, hfound, ih hrest]

theorem getConnection_obtained {cs : ConnState} {connErr : Option String}
    (h : cs.connOpen = true ∨ connErr = none) :
    getConnection cs connErr = .ok (if cs.connOpen then cs else { connOpen := true }) := by
  unfold getConnection
  rcases h with h | h
  · simp [h]
  · subst h
    cases hc : cs.connOpen <;> simp [hc]

theorem nodeDo_drop (n : Node) (cmd : Cmd) :
    nodeDo n.dropClientErr cmd =
      (nodeDo n cmd).map (fun p => (p.1.dropClientErr, p.2)) := by
  unfold nodeDo Node.dropClientErr
  cases n.cmdFail cmd <;> rfl

theorem fanOut_drop (cmd : Cmd) (ns : List Node) :
    fanOut cmd (ns.map Node.dropClientErr) =
      ⟨(fanOut cmd ns).trace, (fanOut cmd ns).nodes.map Node.dropClientErr,
       (fanOut cmd ns).err⟩ := by
  induction ns with
  | nil => rfl
  | cons n rest ih =>
    simp only [List.map_cons, fanOut, nodeDo_drop]
    cases h : nodeDo n cmd with
    | error e => simp [Except.map, Node.dropClientErr]
    | ok p => simp [Except.map, Node.dropClientErr, ih]

theorem checkLoop_drop (u : String) (ns : List Node) :
    checkLoop u (ns.map Node.dropClientErr) = checkLoop u ns := by
  induction ns with
  | nil => rfl
  | cons n rest ih =>
    simp only [List.map_cons, checkLoop, nodeDo_drop]
    cases h : nodeDo n ["GETUSER", u] with
    | error e => simp [Except.map, Node.dropClientErr]
    | ok p => cases hr : respNil p.2 <;> simp [Except.map, Node.dropClientErr, hr, ih]

/-! ## String facts used for the generated-username claim -/

theorem data_append (s t : String) : (s ++ t).data = s.data ++ t.data := by
  cases s
  cases t
  rfl

theorem eq_empty_iff_data (s : String) : s = "" ↔ s.data = [] := by
  constructor
  · intro h
    rw [h]
  · intro h
    cases s with
    | mk l =>
      have hl : l = [] := h
      rw [hl]

theorem joinNonEmpty_ne_empty {sep : String} {parts : List String} {p : String}
    (hp : p ∈ parts) (hne : p ≠ "") : joinNonEmpty sep parts ≠ "" := by
  induction parts with
  | nil => cases hp
  | cons s rest ih =>
    simp only [joinNonEmpty]
    by_cases hs : s = ""
    · rw [if_pos hs]
      rcases List.mem_cons.mp hp with h | h
      · exact absurd (h.trans hs) hne
      · exact ih h
    · rw [if_neg hs]
      by_cases hr : joinNonEmpty sep rest = ""
      · rw [if_pos hr]
        exact hs
      · rw [if_neg hr]
        intro hcontra
        apply hs
        rw [eq_empty_iff_data] at hcontra ⊢
        rw [data_append, data_append] at hcontra
        simp only [List.append_eq_nil] at hcontra
        exact hcontra.1.1

theorem length_trunc (s : String) (n : Nat) : (trunc s n).length ≤ n := by
  show (s.data.take n).length ≤ n
  simp [List.length_take]

theorem trunc_ne_empty {s : String} {n : Nat} (hs : s ≠ "") (hn : 0 < n) :
    trunc s n ≠ "" := by
  simp only [ne_eq, eq_empty_iff_data] at hs ⊢
  show ¬ s.data.take n = []
  simp only [List.take_eq_nil_iff, not_or]
  exact ⟨by omega, hs⟩

theorem length_goToUpper (s : String) : (goToUpper s).length = s.length := by
  cases s with
  | mk l =>
    show (l.map goCharUpper).length = l.length
    simp

theorem goToUpper_ne_empty {s : String} (h : s ≠ "") : goToUpper s ≠ "" := by
  simp only [ne_eq, eq_empty_iff_data] at h ⊢
  show ¬ s.data.map goCharUpper = []
  simpa using h

/-- No character of the string is an ASCII lowercase letter, i.e. the string is
already fully uppercased. -/
def noLowercase (s : String) : Prop :=
  ∀ c ∈ s.data, ¬ (97 ≤ c.toNat ∧ c.toNat ≤ 122)

theorem toNat_ofNat_of_lt {n : Nat} (h : n < 55296) : (Char.ofNat n).toNat = n := by
  rw [Char.ofNat, dif_pos (Or.inl h)]
  simp [Char.ofNatAux, Char.toNat, UInt32.toNat, BitVec.toNat_ofNatLt]

theorem goCharUpper_not_lower (c : Char) :
    ¬ (97 ≤ (goCharUpper c).toNat ∧ (goCharUpper c).toNat ≤ 122) := by
  unfold goCharUpper
  by_cases h : 97 ≤ c.toNat ∧ c.toNat ≤ 122
  · simp only [ge_iff_le, h, and_self, if_true]
    have := @toNat_ofNat_of_lt (c.toNat - 32) (by omega)
    omega
  · simp only [ge_iff_le, if_neg h]
    exact h

theorem noLowercase_goToUpper (s : String) : noLowercase (goToUpper s) := by
  intro c hc
  have hc2 : c ∈ s.data.map goCharUpper := hc
  rcases List.mem_map.mp hc2 with ⟨a, _, rfl⟩
  exact goCharUpper_not_lower a

/-! ## Further small facts -/

theorem removeEmpty_all_blank {l : List String} (h : ∀ s ∈ l, goTrim s = "") :
    removeEmpty l = [] := by
  induction l with
  | nil => rfl
  | cons s rest ih =>
    simp [removeEmpty, h s (List.mem_cons_self ..),
      ih (fun t ht => h t (List.mem_cons_of_mem _ ht))]

theorem lookupUser_setUserEntry (st : List (String × String)) (u pw : String) :
    lookupUser (setUserEntry st u pw) u = some pw := by
  induction st with
  | nil => simp [setUserEntry, lookupUser]
  | cons p rest ih =>
    obtain ⟨k, v⟩ := p
    by_cases hk : k = u
    · simp [setUserEntry, lookupUser, hk]
    · simp [setUserEntry, lookupUser, hk, ih]

/-! ## Shared witness material -/

/-- A sample JSON decoder for witnesses: decodes exactly the default rule
literal and rejects everything else. -/
def jsonDecSample : String → Except String (List String) :=
  fun s => if s = defaultRedisUserRule then .ok ["~*", "+@read"] else .error "invalid JSON"

/-- A concrete healthy node for witnesses: one stored user, no injected
failures. -/
def wNode : Node :=
  { name := "n1", store := [("U1", ">pw0")], clientErr := none, cmdFail := fun _ => none }

/-! ## Claims -/

/-- C1: for every display-name/role-name input, the username returned by
`NewUser` — Go `strings.ToUpper` applied to the generated name — is uppercase,
non-empty, and at most the maximum key length (64 characters), provided the
implementation-chosen uniqueness source is non-empty. -/
theorem newUser_username_wellformed (displayName roleName uniq : String)
    (huniq : uniq ≠ "") :
    goToUpper (generateUsername displayName roleName uniq) ≠ "" ∧
    (goToUpper (generateUsername displayName roleName uniq)).length ≤ maxKeyLength ∧
    noLowercase (goToUpper (generateUsername displayName roleName uniq)) := by
  refine ⟨?_, ?_, noLowercase_goToUpper _⟩
  · apply goToUpper_ne_empty
    apply trunc_ne_empty _ (by norm_num [maxKeyLength])
    exact joinNonEmpty_ne_empty (by simp) huniq
  · rw [length_goToUpper]
    exact length_trunc _ _

/-- Witness for C1 at a concrete input. -/
theorem newUser_username_wellformed_witness :
    ("1700000000RANDOM" ≠ "") ∧
    (goToUpper (generateUsername "token" "mydb" "1700000000RANDOM") ≠ "" ∧
     (goToUpper (generateUsername "token" "mydb" "1700000000RANDOM")).length ≤ maxKeyLength ∧
     noLowercase (goToUpper (generateUsername "token" "mydb" "1700000000RANDOM"))) :=
  ⟨by decide, newUser_username_wellformed "token" "mydb" "1700000000RANDOM" (by decide)⟩

/-- C8: `UpdateUser` carrying no password change is a no-op: no error, no store
command issued, and both the cached-connection state and the store state are
left exactly as they were. -/
theorem updateUser_no_password_noop (cs : ConnState) (w : World)
    (connErr closeErr : Option String) (username : String) :
    UpdateUser cs w connErr closeErr username none = ⟨cs, w, [], none⟩ := rfl

/-- C9: the computed operation timeout equals the time remaining until the
caller's deadline when one is present, and equals the fixed default of
20 seconds when no deadline is supplied. -/
theorem computeTimeout_spec (now deadline : Int) :
    computeTimeout now ⟨some deadline⟩ = deadline - now ∧
    computeTimeout now ⟨none⟩ = defaultTimeout ∧
    defaultTimeout = 20 * second := by
  refine ⟨rfl, rfl, ?_⟩
  norm_num [defaultTimeout, second, millisecond]

/-- C7: whenever a client handle was obtained, `DeleteUser` and
password-rotating `UpdateUser` leave the cached connection force-closed on
return, whatever the ACL command's outcome, and a failure of the close itself
changes nothing in the returned result. -/
theorem close_after_delete_and_rotate (cs : ConnState) (w : World)
    (connErr closeErr closeErr' : Option String) (username password : String)
    (hconn : cs.connOpen = true ∨ connErr = none) :
    (DeleteUser cs w connErr closeErr username).db.connOpen = false ∧
    DeleteUser cs w connErr closeErr username
      = DeleteUser cs w connErr closeErr' username ∧
    (UpdateUser cs w connErr closeErr username (some password)).db.connOpen = false ∧
    UpdateUser cs w connErr closeErr username (some password)
      = UpdateUser cs w connErr closeErr' username (some password) := by
  simp [DeleteUser, UpdateUser, changeUserPassword, getConnection_obtained hconn, closeConn]

/-- Witness for C7 at a concrete input. -/
theorem close_after_delete_and_rotate_witness :
    ((ConnState.mk true).connOpen = true ∨ (none : Option String) = none) ∧
    ((DeleteUser ⟨true⟩ (.pool wNode) none (some "close failed") "U1").db.connOpen = false ∧
     DeleteUser ⟨true⟩ (.pool wNode) none (some "close failed") "U1"
       = DeleteUser ⟨true⟩ (.pool wNode) none none "U1" ∧
     (UpdateUser ⟨true⟩ (.pool wNode) none (some "close failed") "U1" (some "pw1")).db.connOpen
       = false ∧
     UpdateUser ⟨true⟩ (.pool wNode) none (some "close failed") "U1" (some "pw1")
       = UpdateUser ⟨true⟩ (.pool wNode) none none "U1" (some "pw1")) :=
  ⟨Or.inl rfl,
   close_after_delete_and_rotate ⟨true⟩ (.pool wNode) none (some "close failed") none
     "U1" "pw1" (Or.inl rfl)⟩

/-- C4: when the first non-empty rule statement fails to decode as JSON,
`NewUser` returns the rule-parse error and issues no command at all to the
store: the trace is empty and the store state unchanged. -/
theorem newUser_rule_parse_failure (jsonDec : String → Except String (List String))
    (cs : ConnState) (w : World) (connErr : Option String)
    (displayName roleName uniq password : String) (commands : List String) (e : String)
    (hconn : cs.connOpen = true ∨ connErr = none)
    (hstmts : removeEmpty commands ≠ [])
    (hdec : jsonDec ((removeEmpty commands).headD "") = .error e) :
    (NewUser jsonDec cs w connErr displayName roleName uniq password commands).1.err
        = some (.ruleParseFailed e) ∧
    (NewUser jsonDec cs w connErr displayName roleName uniq password commands).1.trace = [] ∧
    (NewUser jsonDec cs w connErr displayName roleName uniq password commands).1.world = w := by
  have hlen : ¬ (removeEmpty commands).length = 0 := by
    simpa [List.length_eq_zero] using hstmts
  have hdec2 : jsonDec ((removeEmpty commands).head?.getD "") = .error e := by
    simpa using hdec
  simp [NewUser, getConnection_obtained hconn, newUserRun, effectiveStatements, hlen, hdec2]

/-- Witness for C4 at a concrete input. -/
theorem newUser_rule_parse_failure_witness :
    ((ConnState.mk true).connOpen = true ∨ (none : Option String) = none) ∧
    removeEmpty ["nonsense"] ≠ [] ∧
    jsonDecSample ((removeEmpty ["nonsense"]).headD "") = .error "invalid JSON" ∧
    ((NewUser jsonDecSample ⟨true⟩ (.pool wNode) none "tok" "db" "12345" "pw"
        ["nonsense"]).1.err = some (.ruleParseFailed "invalid JSON") ∧
     (NewUser jsonDecSample ⟨true⟩ (.pool wNode) none "tok" "db" "12345" "pw"
        ["nonsense"]).1.trace = [] ∧
     (NewUser jsonDecSample ⟨true⟩ (.pool wNode) none "tok" "db" "12345" "pw"
        ["nonsense"]).1.world = .pool wNode) :=
  ⟨Or.inl rfl, by decide, by rfl,
   newUser_rule_parse_failure jsonDecSample ⟨true⟩ (.pool wNode) none "tok" "db" "12345"
     "pw" ["nonsense"] "invalid JSON" (Or.inl rfl) (by decide) (by rfl)⟩

/-- C6: when every supplied rule statement is blank (or the list is empty), the
create command falls back to the default read-only rule: the call succeeds, and
the command issued to each dispatched node is exactly
`SETUSER <username> ON ><password> ~* +@read`. -/
theorem newUser_default_rule (jsonDec : String → Except String (List String))
    (db : World) (username password : String) (commands : List String)
    (hblank : ∀ s ∈ commands, goTrim s = "")
    (hdec : jsonDec defaultRedisUserRule = .ok ["~*", "+@read"])
    (hok : ∀ n ∈ db.nodes,
      n.cmdFail ["SETUSER", username, "ON", ">" ++ password, "~*", "+@read"] = none) :
    (newUserRun jsonDec db username password commands).err = none ∧
    (newUserRun jsonDec db username password commands).trace.map Prod.snd
      = List.replicate db.nodes.length
          ["SETUSER", username, "ON", ">" ++ password, "~*", "+@read"] := by
  have hre : removeEmpty commands = [] := removeEmpty_all_blank hblank
  cases db with
  | pool n =>
    have hn := hok n (by simp [World.nodes])
    simp [newUserRun, effectiveStatements, hre, hdec, nodeDo_ok hn, World.nodes]
  | cluster ns =>
    have hns : ∀ n ∈ ns,
        n.cmdFail ["SETUSER", username, "ON", ">" ++ password, "~*", "+@read"] = none :=
      fun n hn => hok n (by simpa [World.nodes] using hn)
    simp [newUserRun, effectiveStatements, hre, hdec, fanOut_ok hns, World.nodes, tagTrace,
      Function.comp_def, List.map_const']

/-- Witness for C6 at a concrete input. -/
theorem newUser_default_rule_witness :
    (∀ s ∈ ["", "  "], goTrim s = "") ∧
    jsonDecSample defaultRedisUserRule = .ok ["~*", "+@read"] ∧
    (∀ n ∈ (World.pool wNode).nodes,
      n.cmdFail ["SETUSER", "U2", "ON", ">" ++ "pw2", "~*", "+@read"] = none) ∧
    ((newUserRun jsonDecSample (.pool wNode) "U2" "pw2" ["", "  "]).err = none ∧
     (newUserRun jsonDecSample (.pool wNode) "U2" "pw2" ["", "  "]).trace.map Prod.snd
       = List.replicate (World.pool wNode).nodes.length
           ["SETUSER", "U2", "ON", ">" ++ "pw2", "~*", "+@read"]) :=
  ⟨by decide, by rfl, by decide,
   newUser_default_rule jsonDecSample (.pool wNode) "U2" "pw2" ["", "  "]
     (by decide) (by rfl) (by decide)⟩

/-- A concrete node with an empty ACL table for witnesses. -/
def wNodeEmpty : Node :=
  { name := "n2", store := [], clientErr := none, cmdFail := fun _ => none }

/-- C3: rotating the password of a username absent from the store fails with
the user-not-found error, issues no password-reset command (every command
actually issued is an existence check), and leaves the store state untouched —
it never silently succeeds. -/
theorem updateUser_absent_user (cs : ConnState) (w : World)
    (connErr closeErr : Option String) (username password : String)
    (hconn : cs.connOpen = true ∨ connErr = none)
    (habsent : ∀ n ∈ w.nodes, lookupUser n.store username = none)
    (hok : ∀ n ∈ w.nodes, n.cmdFail ["GETUSER", username] = none)
    (hnodes : w.nodes ≠ []) :
    isUserNotFound (UpdateUser cs w connErr closeErr username (some password)).err = true ∧
    (UpdateUser cs w connErr closeErr username (some password)).world = w ∧
    ∀ t ∈ (UpdateUser cs w connErr closeErr username (some password)).trace,
      t.2 = ["GETUSER", username] := by
  cases w with
  | pool n =>
    have hn := hok n (by simp [World.nodes])
    have ha := habsent n (by simp [World.nodes])
    simp [UpdateUser, changeUserPassword, getConnection_obtained hconn,
      changeUserPasswordRun, nodeDo_ok hn, aclApply, respNil, ha, isUserNotFound,
      applyNode]
  | cluster ns =>
    cases ns with
    | nil => simp [World.nodes] at hnodes
    | cons n rest =>
      have hn := hok n (by simp [World.nodes])
      have ha := habsent n (by simp [World.nodes])
      have hmiss : hasUser n username = false := by simp [hasUser, ha]
      have hck := @checkLoop_missing username [] rest n
        (fun m hm => absurd hm (List.not_mem_nil m)) hn hmiss
      simp only [List.nil_append, List.map_nil] at hck
      simp [UpdateUser, changeUserPassword, getConnection_obtained hconn,
        changeUserPasswordRun, hck, tagTrace, isUserNotFound]

/-- Witness for C3 at a concrete input. -/
theorem updateUser_absent_user_witness :
    ((ConnState.mk true).connOpen = true ∨ (none : Option String) = none) ∧
    (∀ n ∈ (World.pool wNode).nodes, lookupUser n.store "NOSUCH" = none) ∧
    (∀ n ∈ (World.pool wNode).nodes, n.cmdFail ["GETUSER", "NOSUCH"] = none) ∧
    (World.pool wNode).nodes ≠ [] ∧
    (isUserNotFound (UpdateUser ⟨true⟩ (.pool wNode) none none "NOSUCH"
        (some "pw9")).err = true ∧
     (UpdateUser ⟨true⟩ (.pool wNode) none none "NOSUCH" (some "pw9")).world
       = .pool wNode ∧
     ∀ t ∈ (UpdateUser ⟨true⟩ (.pool wNode) none none "NOSUCH" (some "pw9")).trace,
       t.2 = ["GETUSER", "NOSUCH"]) :=
  ⟨Or.inl rfl,
   fun n hn => by
     rcases List.mem_singleton.mp hn with rfl
     decide,
   fun n hn => by
     rcases List.mem_singleton.mp hn with rfl
     rfl,
   List.cons_ne_nil _ _,
   updateUser_absent_user ⟨true⟩ (.pool wNode) none none "NOSUCH" "pw9" (Or.inl rfl)
     (fun n hn => by
       rcases List.mem_singleton.mp hn with rfl
       decide)
     (fun n hn => by
       rcases List.mem_singleton.mp hn with rfl
       rfl)
     (List.cons_ne_nil _ _)⟩

/-- C2: on cluster topology, `UpdateUser` with a new password performs the
existence check per node and then the password reset per node; a user missing
on any single node makes the whole operation fail with the user-not-found
error while it is still checking, before any reset is issued — so no node is
updated on that path (and, per the fan-out policy, nothing is ever rolled
back). -/
theorem updateUser_cluster_per_node :
    (∀ (cs : ConnState) (connErr closeErr : Option String) (username password : String)
       (pre post : List Node) (nk : Node),
       (cs.connOpen = true ∨ connErr = none) →
       (∀ n ∈ pre, n.cmdFail ["GETUSER", username] = none ∧ hasUser n username = true) →
       nk.cmdFail ["GETUSER", username] = none →
       hasUser nk username = false →
       isUserNotFound (UpdateUser cs (.cluster (pre ++ nk :: post)) connErr closeErr
         username (some password)).err = true ∧
       (UpdateUser cs (.cluster (pre ++ nk :: post)) connErr closeErr username
         (some password)).world = .cluster (pre ++ nk :: post) ∧
       (UpdateUser cs (.cluster (pre ++ nk :: post)) connErr closeErr username
         (some password)).trace
         = tagTrace (pre.map (fun n => (n.name, ["GETUSER", username]))
             ++ [(nk.name, ["GETUSER", username])])) ∧
    (∀ (cs : ConnState) (connErr closeErr : Option String) (username password : String)
       (ns : List Node),
       (cs.connOpen = true ∨ connErr = none) →
       (∀ n ∈ ns, n.cmdFail ["GETUSER", username] = none ∧ hasUser n username = true) →
       (∀ n ∈ ns, n.cmdFail (resetCmd username password) = none) →
       (UpdateUser cs (.cluster ns) connErr closeErr username (some password)).err
         = none ∧
       (UpdateUser cs (.cluster ns) connErr closeErr username (some password)).trace
         = tagTrace (ns.map (fun n => (n.name, ["GETUSER", username])))
           ++ tagTrace (ns.map (fun n => (n.name, resetCmd username password))) ∧
       (UpdateUser cs (.cluster ns) connErr closeErr username (some password)).world
         = .cluster (ns.map (applyNode (resetCmd username password))) ∧
       ∀ n ∈ ns, lookupUser (applyNode (resetCmd username password) n).store username
         = some (">" ++ password)) := by
  constructor
  · intro cs connErr closeErr username password pre post nk hconn hpre hkok hkmiss
    have hck := @checkLoop_missing username pre post nk hpre hkok hkmiss
    simp [UpdateUser, changeUserPassword, getConnection_obtained hconn,
      changeUserPasswordRun, hck, tagTrace, isUserNotFound]
  · intro cs connErr closeErr username password ns hconn hck hreset
    have hcl := checkLoop_ok hck
    have hfo := fanOut_ok hreset
    refine ⟨?_, ?_, ?_, ?_⟩
    · simp [UpdateUser, changeUserPassword, getConnection_obtained hconn,
        changeUserPasswordRun, hcl, hfo]
    · simp [UpdateUser, changeUserPassword, getConnection_obtained hconn,
        changeUserPasswordRun, hcl, hfo, tagTrace]
    · simp [UpdateUser, changeUserPassword, getConnection_obtained hconn,
        changeUserPasswordRun, hcl, hfo]
    · intro n _
      show lookupUser (setUserEntry n.store username (">" ++ password)) username
        = some (">" ++ password)
      exact lookupUser_setUserEntry n.store username (">" ++ password)

/-- Witness for C2 at concrete inputs, one per conjunct. -/
theorem updateUser_cluster_per_node_witness :
    (((ConnState.mk true).connOpen = true ∨ (none : Option String) = none) ∧
     (∀ n ∈ [wNode], n.cmdFail ["GETUSER", "U1"] = none ∧ hasUser n "U1" = true) ∧
     wNodeEmpty.cmdFail ["GETUSER", "U1"] = none ∧
     hasUser wNodeEmpty "U1" = false ∧
     (isUserNotFound (UpdateUser ⟨true⟩ (.cluster ([wNode] ++ wNodeEmpty :: []))
         none none "U1" (some "pw9")).err = true ∧
      (UpdateUser ⟨true⟩ (.cluster ([wNode] ++ wNodeEmpty :: [])) none none "U1"
        (some "pw9")).world = .cluster ([wNode] ++ wNodeEmpty :: []) ∧
      (UpdateUser ⟨true⟩ (.cluster ([wNode] ++ wNodeEmpty :: [])) none none "U1"
        (some "pw9")).trace
        = tagTrace ([wNode].map (fun n => (n.name, ["GETUSER", "U1"]))
            ++ [(wNodeEmpty.name, ["GETUSER", "U1"])]))) ∧
    ((∀ n ∈ [wNode], n.cmdFail ["GETUSER", "U1"] = none ∧ hasUser n "U1" = true) ∧
     (∀ n ∈ [wNode], n.cmdFail (resetCmd "U1" "pw9") = none) ∧
     ((UpdateUser ⟨true⟩ (.cluster [wNode]) none none "U1" (some "pw9")).err = none ∧
      (UpdateUser ⟨true⟩ (.cluster [wNode]) none none "U1" (some "pw9")).trace
        = tagTrace ([wNode].map (fun n => (n.name, ["GETUSER", "U1"])))
          ++ tagTrace ([wNode].map (fun n => (n.name, resetCmd "U1" "pw9"))) ∧
      (UpdateUser ⟨true⟩ (.cluster [wNode]) none none "U1" (some "pw9")).world
        = .cluster ([wNode].map (applyNode (resetCmd "U1" "pw9"))) ∧
      ∀ n ∈ [wNode], lookupUser (applyNode (resetCmd "U1" "pw9") n).store "U1"
        = some (">" ++ "pw9"))) :=
  ⟨⟨Or.inl rfl,
    fun n hn => by
      rcases List.mem_singleton.mp hn with rfl
      exact ⟨rfl, by decide⟩,
    rfl, by decide,
    updateUser_cluster_per_node.1 ⟨true⟩ none none "U1" "pw9" [wNode] [] wNodeEmpty
      (Or.inl rfl)
      (fun n hn => by
        rcases List.mem_singleton.mp hn with rfl
        exact ⟨rfl, by decide⟩)
      rfl (by decide)⟩,
   ⟨fun n hn => by
      rcases List.mem_singleton.mp hn with rfl
      exact ⟨rfl, by decide⟩,
    fun n hn => by
      rcases List.mem_singleton.mp hn with rfl
      rfl,
    updateUser_cluster_per_node.2 ⟨true⟩ none none "U1" "pw9" [wNode] (Or.inl rfl)
      (fun n hn => by
        rcases List.mem_singleton.mp hn with rfl
        exact ⟨rfl, by decide⟩)
      (fun n hn => by
        rcases List.mem_singleton.mp hn with rfl
        rfl)⟩⟩

/-- A concrete node failing every command, for fan-out scenarios. -/
def wNodeFail : Node :=
  { name := "nf", store := [], clientErr := none, cmdFail := fun _ => some "boom" }

/-- A third healthy node, enumerated after the failing one. -/
def wNode3 : Node :=
  { name := "n3", store := [], clientErr := none, cmdFail := fun _ => none }

/-- A concrete node that answers existence checks but fails everything else. -/
def wNodeResetFail : Node :=
  { name := "nr", store := [("U1", ">old")], clientErr := none,
    cmdFail := fun c => if c.take 1 = ["GETUSER"] then none else some "boom" }

/-- Counterexample for C5: in `newUser`'s cluster fan-out the command fails on
the second enumerated node — the loop stops there, so only the first two nodes
are contacted — but the returned error is the store's error passed on verbatim
(`return err`, src/redis.go 185) and references no node at all, contrary to the
claim that every fan-out of NewUser/UpdateUser/DeleteUser returns an error
referencing the failing node. -/
theorem newUser_error_lacks_node_counterexample :
    (NewUser jsonDecSample ⟨true⟩ (.cluster [wNode, wNodeFail, wNode3]) none
       "tok" "db" "12345" "pw" []).1.err = some (.rawErr "boom") ∧
    (NewUser jsonDecSample ⟨true⟩ (.cluster [wNode, wNodeFail, wNode3]) none
       "tok" "db" "12345" "pw" []).1.trace
      = [(some "n1", ["SETUSER", "TOK_DB_12345", "ON", ">pw", "~*", "+@read"]),
         (some "nf", ["SETUSER", "TOK_DB_12345", "ON", ">pw", "~*", "+@read"])] ∧
    refNode (OpError.rawErr "boom") = none := by
  refine ⟨by decide, by decide, rfl⟩

/-- C5 (amended): for every cluster fan-out over enumerated nodes
`pre ++ nk :: post` where the command fails on node `nk` and succeeds before
it, the operation stops at `nk`: the nodes before `nk` retain the applied
change, the nodes after `nk` are never contacted, and `DeleteUser` and
password-rotating `UpdateUser` return an error referencing `nk` — while
`NewUser` returns the store's error verbatim, with no node reference. -/
theorem fanout_stops_at_failure :
    (∀ (cs : ConnState) (connErr closeErr : Option String) (username : String)
       (pre post : List Node) (nk : Node) (e : String),
       (cs.connOpen = true ∨ connErr = none) →
       (∀ n ∈ pre, n.cmdFail ["DELUSER", username] = none) →
       nk.cmdFail ["DELUSER", username] = some e →
       (DeleteUser cs (.cluster (pre ++ nk :: post)) connErr closeErr username).err
         = some (.clusterDelFailed nk.name e) ∧
       refNode (OpError.clusterDelFailed nk.name e) = some nk.name ∧
       (DeleteUser cs (.cluster (pre ++ nk :: post)) connErr closeErr username).trace
         = tagTrace (pre.map (fun n => (n.name, ["DELUSER", username]))
             ++ [(nk.name, ["DELUSER", username])]) ∧
       (DeleteUser cs (.cluster (pre ++ nk :: post)) connErr closeErr username).world
         = .cluster (pre.map (applyNode ["DELUSER", username]) ++ nk :: post)) ∧
    (∀ (cs : ConnState) (connErr closeErr : Option String) (username password : String)
       (pre post : List Node) (nk : Node) (e : String),
       (cs.connOpen = true ∨ connErr = none) →
       (∀ n ∈ pre ++ nk :: post,
         n.cmdFail ["GETUSER", username] = none ∧ hasUser n username = true) →
       (∀ n ∈ pre, n.cmdFail (resetCmd username password) = none) →
       nk.cmdFail (resetCmd username password) = some e →
       (UpdateUser cs (.cluster (pre ++ nk :: post)) connErr closeErr username
          (some password)).err = some (.clusterResetFailed username nk.name e) ∧
       refNode (OpError.clusterResetFailed username nk.name e) = some nk.name ∧
       (UpdateUser cs (.cluster (pre ++ nk :: post)) connErr closeErr username
          (some password)).trace
         = tagTrace ((pre ++ nk :: post).map (fun n => (n.name, ["GETUSER", username])))
           ++ tagTrace (pre.map (fun n => (n.name, resetCmd username password))
               ++ [(nk.name, resetCmd username password)]) ∧
       (UpdateUser cs (.cluster (pre ++ nk :: post)) connErr closeErr username
          (some password)).world
         = .cluster (pre.map (applyNode (resetCmd username password)) ++ nk :: post)) ∧
    (∀ (jsonDec : String → Except String (List String)) (cs : ConnState)
       (connErr : Option String) (displayName roleName uniq password : String)
       (commands : List String) (args : List String) (pre post : List Node) (nk : Node)
       (e : String) (acl : Cmd),
       (cs.connOpen = true ∨ connErr = none) →
       jsonDec ((effectiveStatements commands).headD "") = .ok args →
       acl = ["SETUSER", goToUpper (generateUsername displayName roleName uniq), "ON",
         ">" ++ password] ++ args →
       (∀ n ∈ pre, n.cmdFail acl = none) →
       nk.cmdFail acl = some e →
       (NewUser jsonDec cs (.cluster (pre ++ nk :: post)) connErr displayName roleName
          uniq password commands).1.err = some (.rawErr e) ∧
       refNode (OpError.rawErr e) = none ∧
       (NewUser jsonDec cs (.cluster (pre ++ nk :: post)) connErr displayName roleName
          uniq password commands).1.trace
         = tagTrace (pre.map (fun n => (n.name, acl)) ++ [(nk.name, acl)]) ∧
       (NewUser jsonDec cs (.cluster (pre ++ nk :: post)) connErr displayName roleName
          uniq password commands).1.world
         = .cluster (pre.map (applyNode acl) ++ nk :: post)) := by
  refine ⟨?_, ?_, ?_⟩
  · intro cs connErr closeErr username pre post nk e hconn hpre hk
    have hfo := @fanOut_stop ["DELUSER", username] pre post nk e hpre hk
    refine ⟨?_, rfl, ?_, ?_⟩ <;>
      simp [DeleteUser, getConnection_obtained hconn, deleteUserRun, hfo, tagTrace]
  · intro cs connErr closeErr username password pre post nk e hconn hget hpre hk
    have hcl := checkLoop_ok hget
    have hfo := @fanOut_stop (resetCmd username password) pre post nk e hpre hk
    refine ⟨?_, rfl, ?_, ?_⟩ <;>
      simp [UpdateUser, changeUserPassword, getConnection_obtained hconn,
        changeUserPasswordRun, hcl, hfo, tagTrace]
  · intro jsonDec cs connErr displayName roleName uniq password commands args pre post
      nk e acl hconn hdec hacl hpre hk
    have hdec2 : jsonDec ((effectiveStatements commands).head?.getD "") = .ok args := by
      simpa using hdec
    subst hacl
    have hfo := @fanOut_stop _ pre post nk e hpre hk
    simp only [List.cons_append, List.nil_append] at hfo
    refine ⟨?_, rfl, ?_, ?_⟩ <;>
      simp [NewUser, getConnection_obtained hconn, newUserRun, hdec2, hfo, tagTrace]

/-- Witness for C5's amended theorem at concrete inputs, one per conjunct. -/
theorem fanout_stops_at_failure_witness :
    (((ConnState.mk true).connOpen = true ∨ (none : Option String) = none) ∧
     (∀ n ∈ [wNode], n.cmdFail ["DELUSER", "U1"] = none) ∧
     wNodeFail.cmdFail ["DELUSER", "U1"] = some "boom" ∧
     ((DeleteUser ⟨true⟩ (.cluster ([wNode] ++ wNodeFail :: [wNode3])) none none
         "U1").err = some (.clusterDelFailed wNodeFail.name "boom") ∧
      refNode (OpError.clusterDelFailed wNodeFail.name "boom") = some wNodeFail.name ∧
      (DeleteUser ⟨true⟩ (.cluster ([wNode] ++ wNodeFail :: [wNode3])) none none
         "U1").trace
        = tagTrace ([wNode].map (fun n => (n.name, ["DELUSER", "U1"]))
            ++ [(wNodeFail.name, ["DELUSER", "U1"])]) ∧
      (DeleteUser ⟨true⟩ (.cluster ([wNode] ++ wNodeFail :: [wNode3])) none none
         "U1").world
        = .cluster ([wNode].map (applyNode ["DELUSER", "U1"]) ++ wNodeFail :: [wNode3]))) ∧
    ((∀ n ∈ [wNode] ++ wNodeResetFail :: [],
       n.cmdFail ["GETUSER", "U1"] = none ∧ hasUser n "U1" = true) ∧
     (∀ n ∈ [wNode], n.cmdFail (resetCmd "U1" "pw9") = none) ∧
     wNodeResetFail.cmdFail (resetCmd "U1" "pw9") = some "boom" ∧
     ((UpdateUser ⟨true⟩ (.cluster ([wNode] ++ wNodeResetFail :: [])) none none "U1"
         (some "pw9")).err = some (.clusterResetFailed "U1" wNodeResetFail.name "boom") ∧
      (UpdateUser ⟨true⟩ (.cluster ([wNode] ++ wNodeResetFail :: [])) none none "U1"
         (some "pw9")).trace
        = tagTrace (([wNode] ++ wNodeResetFail :: []).map
            (fun n => (n.name, ["GETUSER", "U1"])))
          ++ tagTrace ([wNode].map (fun n => (n.name, resetCmd "U1" "pw9"))
              ++ [(wNodeResetFail.name, resetCmd "U1" "pw9")]))) ∧
    (jsonDecSample ((effectiveStatements ([] : List String)).headD "") = .ok ["~*", "+@read"] ∧
     (∀ n ∈ [wNode],
       n.cmdFail (["SETUSER", goToUpper (generateUsername "tok" "db" "12345"), "ON",
         ">" ++ "pw"] ++ ["~*", "+@read"]) = none) ∧
     wNodeFail.cmdFail (["SETUSER", goToUpper (generateUsername "tok" "db" "12345"), "ON",
         ">" ++ "pw"] ++ ["~*", "+@read"]) = some "boom" ∧
     ((NewUser jsonDecSample ⟨true⟩ (.cluster ([wNode] ++ wNodeFail :: [wNode3])) none
         "tok" "db" "12345" "pw" []).1.err = some (.rawErr "boom") ∧
      refNode (OpError.rawErr "boom") = none)) := by
  refine ⟨⟨Or.inl rfl, ?_, rfl, ?_⟩, ⟨?_, ?_, rfl, ?_⟩, ⟨by rfl, ?_, rfl, ?_⟩⟩
  · intro n hn
    rcases List.mem_singleton.mp hn with rfl
    rfl
  · exact (fanout_stops_at_failure.1 ⟨true⟩ none none "U1" [wNode] [wNode3] wNodeFail
      "boom" (Or.inl rfl)
      (fun n hn => by rcases List.mem_singleton.mp hn with rfl; rfl) rfl)
  · intro n hn
    rcases List.mem_cons.mp hn with rfl | hn
    · exact ⟨rfl, by decide⟩
    · rcases List.mem_singleton.mp hn with rfl
      exact ⟨rfl, by decide⟩
  · intro n hn
    rcases List.mem_singleton.mp hn with rfl
    rfl
  · have h := fanout_stops_at_failure.2.1 ⟨true⟩ none none "U1" "pw9" [wNode] []
      wNodeResetFail "boom" (Or.inl rfl)
      (fun n hn => by
        rcases List.mem_cons.mp hn with rfl | hn
        · exact ⟨rfl, by decide⟩
        · rcases List.mem_singleton.mp hn with rfl
          exact ⟨rfl, by decide⟩)
      (fun n hn => by rcases List.mem_singleton.mp hn with rfl; rfl) rfl
    exact ⟨h.1, h.2.2.1⟩
  · intro n hn
    rcases List.mem_singleton.mp hn with rfl
    rfl
  · have h := fanout_stops_at_failure.2.2 jsonDecSample ⟨true⟩ none "tok" "db" "12345"
      "pw" [] ["~*", "+@read"] [wNode] [wNode3] wNodeFail "boom"
      (["SETUSER", goToUpper (generateUsername "tok" "db" "12345"), "ON",
        ">" ++ "pw"] ++ ["~*", "+@read"]) (Or.inl rfl) (by rfl) rfl
      (fun n hn => by rcases List.mem_singleton.mp hn with rfl; rfl) rfl
    exact ⟨h.1, h.2.1⟩

theorem deleteUserRun_drop (w : World) (u : String) :
    deleteUserRun w.dropClientErr u
      = ⟨(deleteUserRun w u).world.dropClientErr, (deleteUserRun w u).trace,
         (deleteUserRun w u).err⟩ := by
  cases w with
  | pool n =>
    simp only [World.dropClientErr, deleteUserRun, nodeDo_drop]
    cases h : nodeDo n ["DELUSER", u] with
    | error e => simp [h, Except.map]
    | ok p => simp [h, Except.map]
  | cluster ns =>
    simp [World.dropClientErr, deleteUserRun, fanOut_drop]

theorem newUserRun_drop (jsonDec : String → Except String (List String)) (w : World)
    (u pw : String) (commands : List String) :
    newUserRun jsonDec w.dropClientErr u pw commands
      = ⟨(newUserRun jsonDec w u pw commands).world.dropClientErr,
         (newUserRun jsonDec w u pw commands).trace,
         (newUserRun jsonDec w u pw commands).err⟩ := by
  cases hj : jsonDec ((effectiveStatements commands).head?.getD "") with
  | error e => simp [newUserRun, hj]
  | ok args =>
    cases w with
    | pool n =>
      simp only [World.dropClientErr, newUserRun, nodeDo_drop]
      cases h : nodeDo n ("SETUSER" :: u :: "ON" :: (">" ++ pw) :: args) with
      | error e => simp [hj, h, Except.map]
      | ok p => simp [hj, h, Except.map]
    | cluster ns =>
      simp [World.dropClientErr, newUserRun, hj, fanOut_drop]

theorem changeUserPasswordRun_drop (w : World) (u pw : String) :
    changeUserPasswordRun w.dropClientErr u pw
      = ⟨(changeUserPasswordRun w u pw).world.dropClientErr,
         (changeUserPasswordRun w u pw).trace, (changeUserPasswordRun w u pw).err⟩ := by
  cases w with
  | pool n =>
    simp only [World.dropClientErr, changeUserPasswordRun, nodeDo_drop]
    cases h1 : nodeDo n ["GETUSER", u] with
    | error e => simp [h1, Except.map]
    | ok p =>
      cases hr : respNil p.2 with
      | true => simp [h1, hr, Except.map]
      | false =>
        cases h2 : nodeDo p.1 (resetCmd u pw) with
        | error e => simp [h1, hr, h2, nodeDo_drop, Except.map]
        | ok q => simp [h1, hr, h2, nodeDo_drop, Except.map]
  | cluster ns =>
    simp only [World.dropClientErr, changeUserPasswordRun, checkLoop_drop]
    cases hc : (checkLoop u ns).err with
    | some e => simp [hc]
    | none => simp [hc, fanOut_drop]

/-- C10: in every cluster fan-out loop of `NewUser`, `UpdateUser` and
`DeleteUser`, the error returned while obtaining the per-node client is
discarded — immediately overwritten by the result of running the command on
that client — and never surfaces as a distinct failure: each operation's
observable outcome (returned error, issued commands, resulting stores,
connection state, returned username) is the same whatever those per-node
client-acquisition errors are. -/
theorem clientErr_never_surfaces (jsonDec : String → Except String (List String))
    (cs : ConnState) (w : World) (connErr closeErr : Option String)
    (username displayName roleName uniq password : String)
    (newPassword : Option String) (commands : List String) :
    DeleteUser cs w.dropClientErr connErr closeErr username
      = (DeleteUser cs w connErr closeErr username).dropClientErr ∧
    UpdateUser cs w.dropClientErr connErr closeErr username newPassword
      = (UpdateUser cs w connErr closeErr username newPassword).dropClientErr ∧
    (NewUser jsonDec cs w.dropClientErr connErr displayName roleName uniq password
       commands).1
      = (NewUser jsonDec cs w connErr displayName roleName uniq password
          commands).1.dropClientErr ∧
    (NewUser jsonDec cs w.dropClientErr connErr displayName roleName uniq password
       commands).2
      = (NewUser jsonDec cs w connErr displayName roleName uniq password commands).2 := by
  refine ⟨?_, ?_, ?_, ?_⟩
  · cases hg : getConnection cs connErr with
    | error e => simp [DeleteUser, hg, OpOut.dropClientErr]
    | ok cs1 => simp [DeleteUser, hg, deleteUserRun_drop, OpOut.dropClientErr]
  · cases newPassword with
    | none => simp [UpdateUser, OpOut.dropClientErr]
    | some pw =>
      cases hg : getConnection cs connErr with
      | error e => simp [UpdateUser, changeUserPassword, hg, OpOut.dropClientErr]
      | ok cs1 =>
        simp [UpdateUser, changeUserPassword, hg, changeUserPasswordRun_drop,
          OpOut.dropClientErr]
  · cases hg : getConnection cs connErr with
    | error e => simp [NewUser, hg, OpOut.dropClientErr]
    | ok cs1 => simp [NewUser, hg, newUserRun_drop, OpOut.dropClientErr]
  · cases hg : getConnection cs connErr with
    | error e => simp [NewUser, hg]
    | ok cs1 => simp [NewUser, hg, newUserRun_drop]

end RedisPlugin
